import Mathlib

/-!
Shallow embedding of the getlantern/golog logging library
(src/golog.go, src/facade.go) together with proofs about its
spec-level properties.

Modelling conventions:
* Go `interface{}` log arguments become the inductive `GoVal`; Go `error`
  values become `GoErr` (identity is Lean equality; the `ext` constructor
  carries a tag so errors with equal text can have distinct identity), and
  the nilable `error` interface type becomes `GoError := Option GoErr`.
* Writers are identified by opaque `Nat` handles; the observable effect of
  a logging call is a list of `Event`s (writes, stack dumps, fatal-handler
  invocations).  A Go panic is modelled by an `Option` result of `none`.
* The ambient operation context produced by the external collaborator
  `ops.AsMap(err, false)` is passed in as an explicit association list
  (its keys are unique, as it comes from a Go map).
* `hidden.Clean` (external scrubber of non-printing marker bytes) is the
  identity on ordinary text and is modelled as the identity.
* Caller resolution (`runtime.Callers`) is a platform capability; the
  resolved `file` and `line` are passed in as parameters.
-/

/-- Go error values.  `synth s` is an error built from a formatted message
(`fmt.Errorf` / the errors-library constructor); `ext tag s` is a
caller-supplied error with identity tag `tag` and `Error()` text `s`. -/
inductive GoErr where
  | synth : String → GoErr
  | ext : Nat → String → GoErr
deriving DecidableEq, Repr

/-- The text returned by the Go `Error()` method. -/
def errText : GoErr → String
  | .synth s => s
  | .ext _ s => s

/-- Values passed as `interface{}` log arguments: nil interface, string,
error, bool, integer, or a value implementing the MultiLine capability
(one first line plus the remaining lines its printer produces). -/
inductive GoVal where
  | nilv : GoVal
  | str : String → GoVal
  | err : GoErr → GoVal
  | boolv : Bool → GoVal
  | intv : Int → GoVal
  | multi : String → List String → GoVal
deriving DecidableEq, Repr

/-- The Go `error` interface type: `none` is the nil error. -/
abbrev GoError := Option GoErr

/-- One decimal digit character. -/
def digitChar (n : Nat) : Char :=
  if n = 0 then '0' else if n = 1 then '1' else if n = 2 then '2'
  else if n = 3 then '3' else if n = 4 then '4' else if n = 5 then '5'
  else if n = 6 then '6' else if n = 7 then '7' else if n = 8 then '8'
  else if n = 9 then '9' else '*'

/-- Accumulates the decimal digits of `n` (most significant first). -/
def natDecimalGo (n : Nat) (acc : List Char) : List Char :=
  if h : n = 0 then acc
  else natDecimalGo (n / 10) (digitChar (n % 10) :: acc)
termination_by n
decreasing_by exact Nat.div_lt_self (Nat.pos_of_ne_zero h) (by omega)

/-- Decimal rendering of a natural number, modelling the `%d` verb. -/
def natDecimal (n : Nat) : String :=
  if n = 0 then "0" else ⟨natDecimalGo n []⟩

/-- `fmt`'s `%v` rendering of the modelled values. -/
def render : GoVal → String
  | .nilv => "<nil>"
  | .str s => s
  | .err e => errText e
  | .boolv b => cond b "true" "false"
  | .intv n => if n < 0 then "-" ++ natDecimal n.natAbs else natDecimal n.natAbs
  | .multi l0 rest => String.intercalate "\n" (l0 :: rest)

/-- Substitutes `%v` verbs left to right, modelling `fmt.Sprintf` on the
format strings used with `%v`-style arguments. -/
def sprintfVAux : List Char → List GoVal → List Char
  | [], _ => []
  | '%' :: 'v' :: rest, a :: as => (render a).data ++ sprintfVAux rest as
  | c :: rest, as => c :: sprintfVAux rest as

/-- `fmt.Sprintf` restricted to `%v` verbs. -/
def sprintfV (msg : String) (args : List GoVal) : String :=
  ⟨sprintfVAux msg.data args⟩

/-- Go `path/filepath.Base` (unix rules): empty path gives ".", trailing
slashes are dropped, the suffix after the last slash is kept, and an
all-slash path gives "/". -/
def filepathBase (path : String) : String :=
  if path.data = [] then "."
  else
    let trimmed := path.data.reverse.dropWhile (fun c => c = '/')
    if trimmed = [] then "/"
    else ⟨(trimmed.takeWhile (fun c => c ≠ '/')).reverse⟩

/-- Go `strconv.ParseBool`: the exact strings it accepts, `none` on error. -/
def parseBool (s : String) : Option Bool :=
  if s = "1" ∨ s = "t" ∨ s = "T" ∨ s = "true" ∨ s = "TRUE" ∨ s = "True" then some true
  else if s = "0" ∨ s = "f" ∨ s = "F" ∨ s = "false" ∨ s = "FALSE" ∨ s = "False" then some false
  else none

/-- Go `strings.Trim(s, " ")`: strips spaces from both ends. -/
def trimSpaces (s : String) : String :=
  ⟨((s.data.dropWhile (fun c => c = ' ')).reverse.dropWhile (fun c => c = ' ')).reverse⟩

/-- Splitting accumulator for `splitComma`. -/
def splitCommaAux : List Char → List Char → List String
  | [], acc => [⟨acc.reverse⟩]
  | ',' :: rest, acc => (⟨acc.reverse⟩ : String) :: splitCommaAux rest []
  | c :: rest, acc => splitCommaAux rest (c :: acc)

/-- Go `strings.Split(s, ",")`: in particular `Split("", ",") = [""]`. -/
def splitComma (s : String) : List String :=
  splitCommaAux s.data []

/-- `isTraceEnabled` from src/golog.go: TRACE is either a boolean or a
comma-separated allow-list of logger names; `trace` is the value of the
TRACE environment variable ("" when unset). -/
def isTraceEnabled (trace : String) (pfx : String) : Bool :=
  let traceOn := (parseBool trace).getD false
  if traceOn then true
  else (splitComma trace).any (fun p => pfx = trimSpaces p)

/-- `isStackEnabled` from src/golog.go; `ps` is PRINT_STACK's value. -/
def isStackEnabled (ps : String) : Bool :=
  (parseBool ps).getD false

/-- A Go `map[string]interface{}` modelled as an association list with
unique keys (maintained by `mapInsert`). -/
abbrev CtxMap := List (String × GoVal)

/-- The keys of the map, in insertion order (one arbitrary but fixed
iteration order of the Go map). -/
def keysOf (m : CtxMap) : List String := m.map Prod.fst

/-- Go map assignment `m[k] = v`: overwrites an existing binding for `k`,
otherwise appends a new one. -/
def mapInsert (m : CtxMap) (k : String) (v : GoVal) : CtxMap :=
  if m.any (fun p => p.1 = k) then
    m.map (fun p => if p.1 = k then (k, v) else p)
  else m ++ [(k, v)]

/-- Go map lookup `m[k]` for a key known to be present. -/
def mapGet (m : CtxMap) (k : String) : GoVal :=
  ((m.find? (fun p => p.1 = k)).map Prod.snd).getD GoVal.nilv

/-- The Go `interface{}.(string)` type assertion used on context keys:
panics (modelled as `none`) unless the value is a string. -/
def asString : GoVal → Option String
  | .str s => some s
  | _ => none

/-- The merge loop of `printContext`:
`for i := 0; i < len(additionalContext); i += 2 {
   values[additionalContext[i].(string)] = additionalContext[i+1] }`.
`none` models the panic when a key is not a string (or, for an odd-length
list, the out-of-range access of `additionalContext[i+1]`). -/
def insertPairs (m : CtxMap) : List GoVal → Option CtxMap
  | [] => some m
  | [_] => none
  | k :: v :: rest =>
    match asString k with
    | some ks => insertPairs (mapInsert m ks v) rest
    | none => none

/-- Go `sort.Strings`: ascending lexicographic sort. -/
def sortStrings (l : List String) : List String :=
  List.insertionSort (fun a b => a ≤ b) l

/-- `printContext` from src/golog.go.  `ambient` is the result of the
external collaborator call `ops.AsMap(err, false)` (the error/operation
context); `additionalContext` is the explicit keysAndValues list of the
`...w` variants.  Returns the context suffix appended to the log line
("" when the merged mapping is empty), or `none` on panic. -/
def printContext (ambient : CtxMap) (additionalContext : List GoVal) : Option String :=
  match (if additionalContext.length > 0 ∧ additionalContext.length % 2 = 0 then
           insertPairs ambient additionalContext
         else some ambient) with
  | none => none
  | some values =>
    if values = [] then some ""
    else
      some (" [" ++
        String.intercalate " "
          ((sortStrings (keysOf values)).map (fun k => k ++ "=" ++ render (mapGet values k)))
        ++ "]")

/-- The context suffix produced when no explicit pairs are supplied. -/
def ctxSuffix (ambient : CtxMap) : String :=
  (printContext ambient []).getD ""

/-- Severity levels (src/golog.go): ERROR = 500, FATAL = 600. -/
abbrev Severity := Int

def ERROR : Severity := 500

def FATAL : Severity := 600

/-- `Severity.String` from src/golog.go. -/
def severityString (s : Severity) : String :=
  if s = ERROR then "ERROR" else if s = FATAL then "FATAL" else "UNKNOWN"

/-- Observable effects of a logging call. -/
inductive Event where
  | write : Nat → String → Event
  | stackDump : Event
  | fatalCall : Nat → GoError → Event
  | otherCall : Nat → Event
deriving DecidableEq, Repr

/-- The pair of configured writers (`outputs` in src/golog.go). -/
structure Outputs where
  ErrorOut : Nat
  DebugOut : Nat
deriving DecidableEq, Repr

/-- `streamLogger` from src/golog.go; `pfx` is the logger's prefix field
(it already carries the trailing ": " appended by the builder). -/
structure StreamLogger where
  pfx : String
  traceOn : Bool
  printStack : Bool
deriving DecidableEq, Repr

/-- The result of the process-wide `baseLoggerBuilder`.  The `baseLogger`
interface is open; src only defines the stream backend, so any other
installed backend is represented opaquely by a tag. -/
inductive BaseLoggerKind where
  | stream : StreamLogger → BaseLoggerKind
  | other : Nat → BaseLoggerKind

/-- The process-wide atomically-stored cells: the logger builder
(`loggerBuilder` in src/facade.go), the writer pair (`outs`), and the
registered fatal handler (`onFatal`, identified by an opaque tag). -/
structure GologState where
  loggerBuilder : String → Bool → Bool → BaseLoggerKind
  outs : Outputs
  onFatalHandler : Nat

/-- `SetOutputs` from src/golog.go: stores the writer pair and installs
the stream-backend builder. -/
def SetOutputs (errorOut debugOut : Nat) (st : GologState) : GologState :=
  { st with
    outs := ⟨errorOut, debugOut⟩,
    loggerBuilder := fun p traceOn printStack =>
      .stream { pfx := p ++ ": ", traceOn := traceOn, printStack := printStack } }

/-- `OnFatal` from src/golog.go: stores a new fatal handler. -/
def OnFatal (handler : Nat) (st : GologState) : GologState :=
  { st with onFatalHandler := handler }

/-- `loggerFacade` (src/facade.go, constructed by `LoggerFor` in
src/golog.go). -/
structure LoggerFacade where
  pfx : String
  traceOn : Bool
  printStack : Bool
deriving DecidableEq, Repr

/-- `LoggerFor` from src/golog.go; `traceEnv` and `stackEnv` are the
TRACE and PRINT_STACK environment values ("" when unset). -/
def LoggerFor (traceEnv stackEnv : String) (p : String) : LoggerFacade :=
  { pfx := p
    traceOn := isTraceEnabled traceEnv p
    printStack := isStackEnabled stackEnv }

/-- `loggerFacade.getBaseLogger`: loads the current process-wide builder
and builds a base logger for this facade's configuration. -/
def getBaseLogger (lf : LoggerFacade) (st : GologState) : BaseLoggerKind :=
  st.loggerBuilder lf.pfx lf.traceOn lf.printStack

/-- `streamLogger.linePrefix`: `fmt.Sprintf("%s%s:%d ", l.prefix,
filepath.Base(file), line)`, with the resolved caller passed in. -/
def linePfx (l : StreamLogger) (file : String) (line : Nat) : String :=
  l.pfx ++ filepathBase file ++ ":" ++ natDecimal line ++ " "

/-- The tail of the multi-line loop in `streamLogger.print`: every line
after the first gets the full severity/location header but no context. -/
def multiTail (header : String) : List String → String
  | [] => ""
  | l :: rest => header ++ l ++ "\n" ++ multiTail header rest

/-- `streamLogger.print` from src/golog.go.  Builds the buffer, writes it
once to `out`, and dumps the stack afterwards when enabled.  `none`
models a panic inside `printContext`. -/
def streamPrint (l : StreamLogger) (ambient : CtxMap) (additionalContext : List GoVal)
    (out : Nat) (severity : String) (file : String) (line : Nat) (arg : GoVal) :
    Option (List Event) :=
  let header := severity ++ " " ++ linePfx l file line
  let stackEvents : List Event := if l.printStack then [.stackDump] else []
  match arg with
  | .nilv => some ([Event.write out ""] ++ stackEvents)
  | .multi l0 rest =>
    match printContext ambient additionalContext with
    | none => none
    | some ctx =>
      some ([Event.write out (header ++ l0 ++ ctx ++ "\n" ++ multiTail header rest)] ++ stackEvents)
  | a =>
    match printContext ambient additionalContext with
    | none => none
    | some ctx =>
      some ([Event.write out (header ++ render a ++ ctx ++ "\n")] ++ stackEvents)

/-- `streamLogger.printf` from src/golog.go: formats the message into the
buffer, appends the context suffix and newline, writes once. -/
def streamPrintf (l : StreamLogger) (ambient : CtxMap) (additionalContext : List GoVal)
    (out : Nat) (severity : String) (file : String) (line : Nat)
    (message : String) (args : List GoVal) : Option (List Event) :=
  let stackEvents : List Event := if l.printStack then [.stackDump] else []
  match printContext ambient additionalContext with
  | none => none
  | some ctx =>
    some ([Event.write out (severity ++ " " ++ linePfx l file line ++ sprintfV message args
      ++ ctx ++ "\n")] ++ stackEvents)

/-- The type switch at the top of `streamLogger.errorSkipFrames`: a value
that is already an error is kept, anything else (including the nil
interface) becomes `fmt.Errorf("%v", e)`. -/
def errOfArg : GoVal → GoErr
  | .err e => e
  | a => .synth (render a)

/-- `streamLogger.errorSkipFrames`: computes the error to return, prints
it to the error writer at the given severity, and returns it (the second
component is the returned Go `error`, never the nil interface). -/
def errorSkipFrames (l : StreamLogger) (st : GologState) (ambient : CtxMap)
    (additionalContext : List GoVal) (arg : GoVal) (sev : Severity)
    (file : String) (line : Nat) : Option (List Event) × GoError :=
  let err := errOfArg arg
  (streamPrint l ambient additionalContext st.outs.ErrorOut (severityString sev)
      file line (.err err),
    some err)

/-- The "is already an error" test used when scanning variadic
arguments: yields the error carried by an error-typed value. -/
def asErr : GoVal → Option GoErr
  | .err e => some e
  | _ => none

/-- Modelled from the spec: `errors.NewOffset` from the external
getlantern errors library is not part of this repository's source.  The
spec describes `Errorf`'s use of it as "scanning the variadic arguments
left-to-right and reusing the first one that is already an error as the
returned value instead of wrapping"; when no argument is an error, "a new
error is synthesized from the formatted message". -/
def errorsNewOffset (message : String) (args : List GoVal) : GoErr :=
  match args.findSome? asErr with
  | some e => e
  | none => .synth (sprintfV message args)

/-- `streamLogger.Debug`. -/
def streamDebug (l : StreamLogger) (st : GologState) (ambient : CtxMap)
    (file : String) (line : Nat) (arg : GoVal) : Option (List Event) :=
  streamPrint l ambient [] st.outs.DebugOut "DEBUG" file line arg

/-- `streamLogger.Debugf`. -/
def streamDebugf (l : StreamLogger) (st : GologState) (ambient : CtxMap)
    (file : String) (line : Nat) (message : String) (args : List GoVal) :
    Option (List Event) :=
  streamPrintf l ambient [] st.outs.DebugOut "DEBUG" file line message args

/-- `streamLogger.Debugw`: prints the message with the explicit
keysAndValues merged into the context. -/
def streamDebugw (l : StreamLogger) (st : GologState) (ambient : CtxMap)
    (file : String) (line : Nat) (message : String) (keysAndValues : List GoVal) :
    Option (List Event) :=
  streamPrint l ambient keysAndValues st.outs.DebugOut "DEBUG" file line (.str message)

/-- `streamLogger.Error`. -/
def streamError (l : StreamLogger) (st : GologState) (ambient : CtxMap)
    (file : String) (line : Nat) (arg : GoVal) : Option (List Event) × GoError :=
  errorSkipFrames l st ambient [] arg ERROR file line

/-- `streamLogger.Errorf`: builds the error with the external errors
library, then logs and returns it. -/
def streamErrorf (l : StreamLogger) (st : GologState) (ambient : CtxMap)
    (file : String) (line : Nat) (message : String) (args : List GoVal) :
    Option (List Event) × GoError :=
  errorSkipFrames l st ambient [] (.err (errorsNewOffset message args)) ERROR file line

/-- `streamLogger.Errorw`. -/
def streamErrorw (l : StreamLogger) (st : GologState) (ambient : CtxMap)
    (file : String) (line : Nat) (message : String) (keysAndValues : List GoVal) :
    Option (List Event) × GoError :=
  errorSkipFrames l st ambient keysAndValues (.str message) ERROR file line

/-- `streamLogger.Fatal`: `fatal(l.errorSkipFrames(nil, arg, ..., FATAL))`
— the log line is written first (inside `errorSkipFrames`), then the
currently registered fatal handler is invoked once with the error. -/
def streamFatal (l : StreamLogger) (st : GologState) (ambient : CtxMap)
    (file : String) (line : Nat) (arg : GoVal) : Option (List Event) :=
  match errorSkipFrames l st ambient [] arg FATAL file line with
  | (none, _) => none
  | (some evs, e) => some (evs ++ [Event.fatalCall st.onFatalHandler e])

/-- `streamLogger.Fatalw`:
`fatal(l.errorSkipFrames(keyValuePairs, message, ..., FATAL))`. -/
def streamFatalw (l : StreamLogger) (st : GologState) (ambient : CtxMap)
    (file : String) (line : Nat) (message : String) (keysAndValues : List GoVal) :
    Option (List Event) :=
  match errorSkipFrames l st ambient keysAndValues (.str message) FATAL file line with
  | (none, _) => none
  | (some evs, e) => some (evs ++ [Event.fatalCall st.onFatalHandler e])

/-- `streamLogger.Trace`: a no-op unless the trace flag is set. -/
def streamTrace (l : StreamLogger) (st : GologState) (ambient : CtxMap)
    (file : String) (line : Nat) (arg : GoVal) : Option (List Event) :=
  if l.traceOn then
    streamPrint l ambient [] st.outs.DebugOut "TRACE" file line arg
  else some []

/-- `streamLogger.Tracef`: a no-op unless the trace flag is set. -/
def streamTracef (l : StreamLogger) (st : GologState) (ambient : CtxMap)
    (file : String) (line : Nat) (message : String) (args : List GoVal) :
    Option (List Event) :=
  if l.traceOn then
    streamPrintf l ambient [] st.outs.DebugOut "TRACE" file line message args
  else some []

/-- `streamLogger.Tracew`: a no-op unless the trace flag is set. -/
def streamTracew (l : StreamLogger) (st : GologState) (ambient : CtxMap)
    (file : String) (line : Nat) (message : String) (keysAndValues : List GoVal) :
    Option (List Event) :=
  if l.traceOn then
    streamPrint l ambient keysAndValues st.outs.DebugOut "TRACE" file line (.str message)
  else some []

/-- Strips one trailing newline, as `errorWriter.Write` does. -/
def stripNL (p : String) : String :=
  if p.data.getLast? = some '\n' then ⟨p.data.dropLast⟩ else p

/-- `errorWriter.Write` from src/golog.go (the `AsStdLogger` adapter):
unconditionally indexes the last byte (panic, modelled `none`, on an
empty slice), strips one trailing newline, logs at ERROR severity, and
returns `(len(p), nil)`. -/
def errorWriterWrite (l : StreamLogger) (st : GologState) (ambient : CtxMap)
    (file : String) (line : Nat) (p : String) :
    Option (List Event × Nat × GoError) :=
  if p.data = [] then none
  else
    match streamPrint l ambient [] st.outs.ErrorOut "ERROR" file line (.str (stripNL p)) with
    | none => none
    | some evs => some (evs, p.data.length, none)

/-- `loggerFacade.Debug`: resolves the current base logger, then logs.
A non-stream backend's behaviour is opaque. -/
def facadeDebug (lf : LoggerFacade) (st : GologState) (ambient : CtxMap)
    (file : String) (line : Nat) (arg : GoVal) : Option (List Event) :=
  match getBaseLogger lf st with
  | .stream l => streamDebug l st ambient file line arg
  | .other n => some [.otherCall n]

/-- `loggerFacade.Trace`. -/
def facadeTrace (lf : LoggerFacade) (st : GologState) (ambient : CtxMap)
    (file : String) (line : Nat) (arg : GoVal) : Option (List Event) :=
  match getBaseLogger lf st with
  | .stream l => streamTrace l st ambient file line arg
  | .other n => some [.otherCall n]

/-- `loggerFacade.Tracef`. -/
def facadeTracef (lf : LoggerFacade) (st : GologState) (ambient : CtxMap)
    (file : String) (line : Nat) (message : String) (args : List GoVal) :
    Option (List Event) :=
  match getBaseLogger lf st with
  | .stream l => streamTracef l st ambient file line message args
  | .other n => some [.otherCall n]

/-- `loggerFacade.Tracew`. -/
def facadeTracew (lf : LoggerFacade) (st : GologState) (ambient : CtxMap)
    (file : String) (line : Nat) (message : String) (keysAndValues : List GoVal) :
    Option (List Event) :=
  match getBaseLogger lf st with
  | .stream l => streamTracew l st ambient file line message keysAndValues
  | .other n => some [.otherCall n]

/-- `loggerFacade.Error`. -/
def facadeError (lf : LoggerFacade) (st : GologState) (ambient : CtxMap)
    (file : String) (line : Nat) (arg : GoVal) : Option (List Event) × GoError :=
  match getBaseLogger lf st with
  | .stream l => streamError l st ambient file line arg
  | .other n => (some [.otherCall n], some (.synth (render arg)))

/-- `loggerFacade.Errorf`. -/
def facadeErrorf (lf : LoggerFacade) (st : GologState) (ambient : CtxMap)
    (file : String) (line : Nat) (message : String) (args : List GoVal) :
    Option (List Event) × GoError :=
  match getBaseLogger lf st with
  | .stream l => streamErrorf l st ambient file line message args
  | .other n => (some [.otherCall n], some (.synth (sprintfV message args)))

/-- `loggerFacade.Errorw`. -/
def facadeErrorw (lf : LoggerFacade) (st : GologState) (ambient : CtxMap)
    (file : String) (line : Nat) (message : String) (keysAndValues : List GoVal) :
    Option (List Event) × GoError :=
  match getBaseLogger lf st with
  | .stream l => streamErrorw l st ambient file line message keysAndValues
  | .other n => (some [.otherCall n], some (.synth (render (.str message))))

/-- Buffers held by the pool, identified by their capacity. -/
structure PoolBuffer where
  cap : Nat
deriving DecidableEq, Repr

/-- Modelled from the spec: the maximum retained buffer capacity used by
`returnBuffer`.  The constant `maxBufferSize` is referenced by the
repository's TestPool but its defining file is not under src; the test's
comment fixes the value 768. -/
def maxBufferSize : Nat := 768

/-- The capacity of a freshly allocated pool buffer. -/
def freshBuffer : PoolBuffer := { cap := 64 }

/-- Modelled from the spec: `returnBuffer` (referenced by TestPool, not
under src).  "a buffer whose size exceeds the cap when released is
discarded rather than pooled"; returns whether the buffer was pooled. -/
def returnBuffer (pool : List PoolBuffer) (buf : PoolBuffer) :
    List PoolBuffer × Bool :=
  if buf.cap > maxBufferSize then (pool, false)
  else (pool ++ [buf], true)

/-- Modelled from the spec: borrowing from the pool yields a pooled
buffer when one is available and a fresh buffer otherwise. -/
def getBuffer (pool : List PoolBuffer) : PoolBuffer × List PoolBuffer :=
  match pool with
  | [] => (freshBuffer, [])
  | b :: rest => (b, rest)

/-! ### Helper lemmas -/

theorem strExt {s t : String} (h : s.data = t.data) : s = t := by
  cases s; cases t; exact congrArg String.mk h

theorem strAppend_assoc (a b c : String) : a ++ b ++ c = a ++ (b ++ c) :=
  strExt (by simp [String.data_append])

theorem strAppend_empty (s : String) : s ++ "" = s :=
  strExt (by simp [String.data_append])

theorem strEmpty_append (s : String) : "" ++ s = s :=
  strExt (by simp [String.data_append])

theorem printContext_nil_isSome (amb : CtxMap) : (printContext amb []).isSome := by
  simp only [printContext, List.length_nil]
  norm_num
  split <;> simp

theorem printContext_nil (amb : CtxMap) : printContext amb [] = some (ctxSuffix amb) := by
  unfold ctxSuffix
  cases h : printContext amb [] with
  | none =>
    have := printContext_nil_isSome amb
    rw [h] at this
    cases this
  | some s => simp

theorem printContext_odd (amb : CtxMap) (addl : List GoVal)
    (h : addl.length % 2 = 1) : printContext amb addl = printContext amb [] := by
  simp only [printContext, List.length_nil]
  have h1 : ¬(addl.length > 0 ∧ addl.length % 2 = 0) := by omega
  rw [if_neg h1]
  norm_num

theorem keysOf_map_overwrite (m : CtxMap) (k : String) (v : GoVal) :
    keysOf (m.map (fun p => if p.1 = k then (k, v) else p)) = keysOf m := by
  induction m with
  | nil => rfl
  | cons q rest ih =>
    simp only [keysOf, List.map_cons] at *
    by_cases h : q.1 = k
    · simp [h, ih]
    · simp [h, ih]

theorem mapInsert_nodup (m : CtxMap) (k : String) (v : GoVal)
    (h : (keysOf m).Nodup) : (keysOf (mapInsert m k v)).Nodup := by
  unfold mapInsert
  split
  · rwa [keysOf_map_overwrite]
  · rename_i hany
    have hk : k ∉ keysOf m := by
      intro hmem
      rcases List.mem_map.mp hmem with ⟨p, hp, hpk⟩
      exact hany (List.any_eq_true.mpr ⟨p, hp, by simp [hpk]⟩)
    have hkeys : keysOf (m ++ [(k, v)]) = keysOf m ++ [k] := by simp [keysOf]
    rw [hkeys]
    refine h.append (List.nodup_singleton k) ?_
    intro a ha hb
    rw [List.mem_singleton] at hb
    exact hk (hb ▸ ha)

theorem insertPairs_nodup : ∀ (addl : List GoVal) (m v : CtxMap),
    (keysOf m).Nodup → insertPairs m addl = some v → (keysOf v).Nodup
  | [], m, v, hm, h => by
    simp only [insertPairs] at h
    exact (Option.some_injective _ h) ▸ hm
  | [_], m, v, hm, h => by
    simp only [insertPairs] at h
    cases h
  | k :: kv :: rest, m, v, hm, h => by
    rw [insertPairs] at h
    cases hk : asString k with
    | none => rw [hk] at h; cases h
    | some ks =>
      rw [hk] at h
      exact insertPairs_nodup rest (mapInsert m ks kv) v (mapInsert_nodup m ks kv hm) h

theorem sortStrings_sorted_lt {l : List String} (hn : l.Nodup) :
    (sortStrings l).Sorted (fun a b => a < b) := by
  have hs := List.sorted_insertionSort (fun a b => a ≤ b) l
  have hnd : (sortStrings l).Nodup :=
    ((List.perm_insertionSort (fun a b => a ≤ b) l).nodup_iff).mpr hn
  exact (hs.and hnd).imp (fun hab => lt_of_le_of_ne hab.1 hab.2)

theorem digitChar_ne_newline (m : Nat) : digitChar m ≠ '\n' := by
  unfold digitChar
  repeat' split
  all_goals decide

theorem natDecimalGo_mem : ∀ (n : Nat) (acc : List Char) (c : Char),
    c ∈ natDecimalGo n acc → c ∈ acc ∨ ∃ m, c = digitChar m := by
  intro n
  induction n using Nat.strong_induction_on with
  | _ n ih =>
    intro acc c hc
    rw [natDecimalGo] at hc
    split at hc
    · exact Or.inl hc
    · rename_i h
      rcases ih (n / 10) (Nat.div_lt_self (Nat.pos_of_ne_zero h) (by omega)) _ _ hc with
        h1 | h1
      · rcases List.mem_cons.mp h1 with h2 | h2
        · exact Or.inr ⟨n % 10, h2⟩
        · exact Or.inl h2
      · exact Or.inr h1

theorem natDecimal_no_newline (n : Nat) : '\n' ∉ (natDecimal n).data := by
  unfold natDecimal
  split
  · decide
  · intro hc
    rcases natDecimalGo_mem n [] _ hc with h | ⟨m, hm⟩
    · cases h
    · exact digitChar_ne_newline m hm.symm

theorem filepathBase_chars (f : String) (c : Char) (hc : c ∈ (filepathBase f).data) :
    c ∈ f.data ∨ c = '.' ∨ c = '/' := by
  simp only [filepathBase] at hc
  split at hc
  · right; left; simpa using hc
  · split at hc
    · right; right; simpa using hc
    · left
      have h1 : c ∈ f.data.reverse.dropWhile (fun c => c = '/') := by
        rw [show ((⟨((f.data.reverse.dropWhile (fun c => c = '/')).takeWhile
            (fun c => c ≠ '/')).reverse⟩ : String)).data =
            ((f.data.reverse.dropWhile (fun c => c = '/')).takeWhile
            (fun c => c ≠ '/')).reverse from rfl] at hc
        rw [List.mem_reverse] at hc
        exact (List.takeWhile_sublist _).subset hc
      have h2 := (List.dropWhile_sublist _).subset h1
      rwa [List.mem_reverse] at h2

theorem findSome_asErr_none : ∀ (l : List GoVal),
    (∀ v ∈ l, asErr v = none) → l.findSome? asErr = none
  | [], _ => rfl
  | v :: rest, h => by
    rw [List.findSome?_cons, h v (List.mem_cons_self v rest)]
    exact findSome_asErr_none rest (fun w hw => h w (List.mem_cons_of_mem v hw))

theorem findSome_asErr_append (pre post : List GoVal) (e : GoErr)
    (h : ∀ v ∈ pre, asErr v = none) :
    (pre ++ GoVal.err e :: post).findSome? asErr = some e := by
  induction pre with
  | nil => rw [List.nil_append, List.findSome?_cons]; rfl
  | cons v rest ih =>
    rw [List.cons_append, List.findSome?_cons, h v (List.mem_cons_self v rest)]
    exact ih (fun w hw => h w (List.mem_cons_of_mem v hw))

/-! ### Claims -/

/-- C1: `Errorf(format, args...)` returns, identically (not wrapped), the
first error-typed argument found scanning `args` left to right; a new
error is synthesized from the formatted message only when no argument is
an error. -/
theorem errorf_reuses_first_error (l : StreamLogger) (st : GologState)
    (amb : CtxMap) (f : String) (ln : Nat) (msg : String) :
    (∀ (pre post : List GoVal) (e : GoErr), (∀ v ∈ pre, asErr v = none) →
      (streamErrorf l st amb f ln msg (pre ++ GoVal.err e :: post)).2 = some e)
    ∧ (∀ args : List GoVal, (∀ v ∈ args, asErr v = none) →
      (streamErrorf l st amb f ln msg args).2 =
        some (GoErr.synth (sprintfV msg args))) := by
  constructor
  · intro pre post e h
    simp only [streamErrorf, errorSkipFrames, errOfArg, errorsNewOffset,
      findSome_asErr_append pre post e h]
  · intro args h
    simp only [streamErrorf, errorSkipFrames, errOfArg, errorsNewOffset,
      findSome_asErr_none args h]

theorem errorf_reuses_first_error_witness :
    (streamErrorf ⟨"p: ", false, false⟩
      ⟨fun _ _ _ => .other 0, ⟨2, 1⟩, 0⟩ [] "golog.go" 7 "%v failed: %v"
      ([GoVal.str "X"] ++ GoVal.err (GoErr.ext 7 "boom") :: [])).2 =
      some (GoErr.ext 7 "boom") :=
  (errorf_reuses_first_error ⟨"p: ", false, false⟩
      ⟨fun _ _ _ => .other 0, ⟨2, 1⟩, 0⟩ [] "golog.go" 7 "%v failed: %v").1
    [GoVal.str "X"] [] (GoErr.ext 7 "boom") (by decide)

/-- C4: `Error`, `Errorf` and `Errorw` always return a non-nil error: a
passed-through error is returned as-is, and any non-error argument or
formatted message is converted into a fresh non-nil error value. -/
theorem error_methods_return_nonnil (l : StreamLogger) (st : GologState)
    (amb : CtxMap) (f : String) (ln : Nat) (arg : GoVal) (msg : String)
    (args kvs : List GoVal) (e : GoErr) :
    (streamError l st amb f ln arg).2 ≠ none
    ∧ (streamErrorf l st amb f ln msg args).2 ≠ none
    ∧ (streamErrorw l st amb f ln msg kvs).2 ≠ none
    ∧ (streamError l st amb f ln (GoVal.err e)).2 = some e := by
  refine ⟨?_, ?_, ?_, ?_⟩ <;>
    simp [streamError, streamErrorf, streamErrorw, errorSkipFrames, errOfArg]

/-- C10: a `Debugw`, `Errorw`, `Tracew` or `Fatalw` call whose
keysAndValues list has odd length silently ignores the explicit pairs:
each call behaves exactly as the same call with no explicit pairs (the
emitted context is the ambient context alone), and the odd count alone
causes no panic. -/
theorem oddw_pairs_ignored (l : StreamLogger) (st : GologState) (amb : CtxMap)
    (f : String) (ln : Nat) (msg : String) (kvs : List GoVal)
    (h : kvs.length % 2 = 1) :
    (streamDebugw l st amb f ln msg kvs = streamDebugw l st amb f ln msg []
      ∧ (streamDebugw l st amb f ln msg kvs).isSome)
    ∧ (streamErrorw l st amb f ln msg kvs = streamErrorw l st amb f ln msg []
      ∧ (streamErrorw l st amb f ln msg kvs).1.isSome)
    ∧ (streamTracew l st amb f ln msg kvs = streamTracew l st amb f ln msg []
      ∧ (streamTracew l st amb f ln msg kvs).isSome)
    ∧ (streamFatalw l st amb f ln msg kvs = streamFatalw l st amb f ln msg []
      ∧ (streamFatalw l st amb f ln msg kvs).isSome) := by
  have hpc : printContext amb kvs = printContext amb [] := printContext_odd amb kvs h
  have hprintStr : ∀ (out : Nat) (sev : String),
      streamPrint l amb kvs out sev f ln (GoVal.str msg) =
        streamPrint l amb [] out sev f ln (GoVal.str msg) := by
    intro out sev
    simp only [streamPrint, hpc]
  have hprintErr : ∀ (out : Nat) (sev : String) (e : GoErr),
      streamPrint l amb kvs out sev f ln (GoVal.err e) =
        streamPrint l amb [] out sev f ln (GoVal.err e) := by
    intro out sev e
    simp only [streamPrint, hpc]
  have hsomeStr : ∀ (out : Nat) (sev : String),
      (streamPrint l amb [] out sev f ln (GoVal.str msg)).isSome := by
    intro out sev
    simp [streamPrint, printContext_nil amb]
  have hsomeErr : ∀ (out : Nat) (sev : String) (e : GoErr),
      (streamPrint l amb [] out sev f ln (GoVal.err e)).isSome := by
    intro out sev e
    simp [streamPrint, printContext_nil amb]
  refine ⟨⟨?_, ?_⟩, ⟨?_, ?_⟩, ⟨?_, ?_⟩, ⟨?_, ?_⟩⟩
  · simp only [streamDebugw]
    exact hprintStr _ _
  · simp only [streamDebugw, hprintStr]
    exact hsomeStr _ _
  · simp only [streamErrorw, errorSkipFrames, hprintErr]
  · simp only [streamErrorw, errorSkipFrames, hprintErr]
    exact hsomeErr _ _ _
  · by_cases ht : l.traceOn <;> simp [streamTracew, ht, hprintStr]
  · by_cases ht : l.traceOn <;> simp [streamTracew, ht, hprintStr, hsomeStr]
  · simp only [streamFatalw, errorSkipFrames, hprintErr]
  · simp only [streamFatalw, errorSkipFrames, hprintErr]
    rcases Option.isSome_iff_exists.mp
      (hsomeErr st.outs.ErrorOut (severityString FATAL) (errOfArg (GoVal.str msg)))
      with ⟨evs, hevs⟩
    rw [hevs]
    rfl

theorem oddw_pairs_ignored_witness :
    (streamDebugw ⟨"p: ", false, false⟩ ⟨fun _ _ _ => .other 0, ⟨2, 1⟩, 0⟩
        [("op", GoVal.str "name")] "golog.go" 3 "m" [GoVal.str "lone"] =
      streamDebugw ⟨"p: ", false, false⟩ ⟨fun _ _ _ => .other 0, ⟨2, 1⟩, 0⟩
        [("op", GoVal.str "name")] "golog.go" 3 "m" []
    ∧ (streamDebugw ⟨"p: ", false, false⟩ ⟨fun _ _ _ => .other 0, ⟨2, 1⟩, 0⟩
        [("op", GoVal.str "name")] "golog.go" 3 "m" [GoVal.str "lone"]).isSome)
    ∧ (streamErrorw ⟨"p: ", false, false⟩ ⟨fun _ _ _ => .other 0, ⟨2, 1⟩, 0⟩
        [("op", GoVal.str "name")] "golog.go" 3 "m" [GoVal.str "lone"] =
      streamErrorw ⟨"p: ", false, false⟩ ⟨fun _ _ _ => .other 0, ⟨2, 1⟩, 0⟩
        [("op", GoVal.str "name")] "golog.go" 3 "m" []
    ∧ (streamErrorw ⟨"p: ", false, false⟩ ⟨fun _ _ _ => .other 0, ⟨2, 1⟩, 0⟩
        [("op", GoVal.str "name")] "golog.go" 3 "m" [GoVal.str "lone"]).1.isSome)
    ∧ (streamTracew ⟨"p: ", false, false⟩ ⟨fun _ _ _ => .other 0, ⟨2, 1⟩, 0⟩
        [("op", GoVal.str "name")] "golog.go" 3 "m" [GoVal.str "lone"] =
      streamTracew ⟨"p: ", false, false⟩ ⟨fun _ _ _ => .other 0, ⟨2, 1⟩, 0⟩
        [("op", GoVal.str "name")] "golog.go" 3 "m" []
    ∧ (streamTracew ⟨"p: ", false, false⟩ ⟨fun _ _ _ => .other 0, ⟨2, 1⟩, 0⟩
        [("op", GoVal.str "name")] "golog.go" 3 "m" [GoVal.str "lone"]).isSome)
    ∧ (streamFatalw ⟨"p: ", false, false⟩ ⟨fun _ _ _ => .other 0, ⟨2, 1⟩, 0⟩
        [("op", GoVal.str "name")] "golog.go" 3 "m" [GoVal.str "lone"] =
      streamFatalw ⟨"p: ", false, false⟩ ⟨fun _ _ _ => .other 0, ⟨2, 1⟩, 0⟩
        [("op", GoVal.str "name")] "golog.go" 3 "m" []
    ∧ (streamFatalw ⟨"p: ", false, false⟩ ⟨fun _ _ _ => .other 0, ⟨2, 1⟩, 0⟩
        [("op", GoVal.str "name")] "golog.go" 3 "m" [GoVal.str "lone"]).isSome) :=
  oddw_pairs_ignored ⟨"p: ", false, false⟩ ⟨fun _ _ _ => .other 0, ⟨2, 1⟩, 0⟩
    [("op", GoVal.str "name")] "golog.go" 3 "m" [GoVal.str "lone"] (by decide)

/-- C7: when a logger's trace flag resolved false at construction (TRACE
unset/false and the name not in the allow-list), `Trace`, `Tracef` and
`Tracew` produce no events at all — zero bytes reach any writer. -/
theorem trace_disabled_no_output (t ps p : String) (s : GologState)
    (eo dbg : Nat) (amb : CtxMap) (f : String) (ln : Nat) (arg : GoVal)
    (msg : String) (args kvs : List GoVal)
    (h : isTraceEnabled t p = false) :
    facadeTrace (LoggerFor t ps p) (SetOutputs eo dbg s) amb f ln arg = some []
    ∧ facadeTracef (LoggerFor t ps p) (SetOutputs eo dbg s) amb f ln msg args = some []
    ∧ facadeTracew (LoggerFor t ps p) (SetOutputs eo dbg s) amb f ln msg kvs = some [] := by
  refine ⟨?_, ?_, ?_⟩ <;>
    simp [facadeTrace, facadeTracef, facadeTracew, getBaseLogger, SetOutputs,
      LoggerFor, streamTrace, streamTracef, streamTracew, h]

theorem trace_disabled_no_output_witness :
    isTraceEnabled "" "myprefix" = false
    ∧ facadeTrace (LoggerFor "" "" "myprefix")
        (SetOutputs 2 1 ⟨fun _ _ _ => .other 0, ⟨2, 1⟩, 0⟩) [] "golog.go" 3
        (GoVal.str "Hello world") = some [] :=
  ⟨by decide,
    (trace_disabled_no_output "" "" "myprefix" ⟨fun _ _ _ => .other 0, ⟨2, 1⟩, 0⟩
      2 1 [] "golog.go" 3 (GoVal.str "Hello world") "m" [] [] (by decide)).1⟩

/-- C2: a facade obtained before `SetOutputs` replaces the process-wide
builder uses, on its next invocation, the newly installed builder and the
newly configured writers, whatever the previous configuration was: the
builder is loaded afresh at call time and no mix of old and new
configuration is observed. -/
theorem facade_uses_current_builder (lf : LoggerFacade) (s : GologState)
    (eo dbg : Nat) (amb : CtxMap) (f : String) (ln : Nat) (m : String)
    (hstack : lf.printStack = false) :
    getBaseLogger lf (SetOutputs eo dbg s) =
      .stream { pfx := lf.pfx ++ ": ", traceOn := lf.traceOn,
                printStack := lf.printStack }
    ∧ facadeDebug lf (SetOutputs eo dbg s) amb f ln (GoVal.str m) =
      some [Event.write dbg
        ("DEBUG" ++ " " ++
          linePfx { pfx := lf.pfx ++ ": ", traceOn := lf.traceOn,
                    printStack := lf.printStack } f ln ++
          m ++ ctxSuffix amb ++ "\n")] := by
  constructor
  · rfl
  · simp [facadeDebug, getBaseLogger, SetOutputs, streamDebug, streamPrint,
      printContext_nil amb, hstack, render]

theorem facade_uses_current_builder_witness :
    facadeDebug ⟨"myprefix", false, false⟩
        (SetOutputs 9 8 ⟨fun _ _ _ => .other 5, ⟨2, 1⟩, 0⟩) [] "golog.go" 3
        (GoVal.str "hi") =
      some [Event.write 8
        ("DEBUG" ++ " " ++
          linePfx { pfx := ("myprefix" : String) ++ ": ", traceOn := false,
                    printStack := false } "golog.go" 3 ++
          "hi" ++ ctxSuffix [] ++ "\n")] :=
  (facade_uses_current_builder ⟨"myprefix", false, false⟩
      ⟨fun _ _ _ => .other 5, ⟨2, 1⟩, 0⟩ 9 8 [] "golog.go" 3 "hi" rfl).2

/-- C6: `Fatal(x)` first writes the formatted FATAL line to the error
writer and only afterwards invokes the currently registered fatal handler,
exactly once, with an error whose text is the textual representation of
`x`. -/
theorem fatal_flushes_then_calls_handler (l : StreamLogger) (st : GologState)
    (amb : CtxMap) (f : String) (ln : Nat) (x : GoVal)
    (hps : l.printStack = false) :
    streamFatal l st amb f ln x =
      some [Event.write st.outs.ErrorOut
          ("FATAL" ++ " " ++ linePfx l f ln ++ errText (errOfArg x) ++
            ctxSuffix amb ++ "\n"),
        Event.fatalCall st.onFatalHandler (some (errOfArg x))]
    ∧ errText (errOfArg x) = render x := by
  constructor
  · cases x <;>
      simp [streamFatal, errorSkipFrames, streamPrint, printContext_nil amb,
        hps, severityString, ERROR, FATAL, render, errOfArg]
  · cases x <;> simp [errOfArg, errText, render]

theorem fatal_flushes_then_calls_handler_witness :
    streamFatal ⟨"p: ", false, false⟩ ⟨fun _ _ _ => .other 0, ⟨2, 1⟩, 4⟩
        [] "golog.go" 3 (GoVal.str "x") =
      some [Event.write 2
          ("FATAL" ++ " " ++
            linePfx ⟨"p: ", false, false⟩ "golog.go" 3 ++
            errText (errOfArg (GoVal.str "x")) ++ ctxSuffix [] ++ "\n"),
        Event.fatalCall 4 (some (errOfArg (GoVal.str "x")))]
    ∧ errText (errOfArg (GoVal.str "x")) = render (GoVal.str "x") :=
  fatal_flushes_then_calls_handler ⟨"p: ", false, false⟩
    ⟨fun _ _ _ => .other 0, ⟨2, 1⟩, 4⟩ [] "golog.go" 3 (GoVal.str "x") rfl

/-- C9: for non-empty `p`, the `AsStdLogger` adapter's `Write(p)` strips
at most one trailing newline, logs the result at ERROR severity, and
returns `(len(p), nil)`; the empty slice is outside its domain because
the last byte is indexed unconditionally. -/
theorem errorWriter_write_spec (l : StreamLogger) (st : GologState)
    (amb : CtxMap) (f : String) (ln : Nat) (p : String)
    (hps : l.printStack = false) (hp : p ≠ "") :
    errorWriterWrite l st amb f ln p =
      some ([Event.write st.outs.ErrorOut
          ("ERROR" ++ " " ++ linePfx l f ln ++ stripNL p ++ ctxSuffix amb ++ "\n")],
        p.data.length, none)
    ∧ (p.data = (stripNL p).data ++ ['\n'] ∨ stripNL p = p)
    ∧ errorWriterWrite l st amb f ln "" = none := by
  have hdata : p.data ≠ [] := by
    intro h
    exact hp (strExt (h.trans rfl))
  refine ⟨?_, ?_, rfl⟩
  · simp [errorWriterWrite, hdata, streamPrint, printContext_nil amb, hps, render]
  · unfold stripNL
    split
    · rename_i hlast
      left
      have hgl := List.getLast?_eq_getLast p.data hdata
      rw [hgl] at hlast
      have hc : p.data.getLast hdata = '\n' := by
        exact Option.some_injective _ hlast
      calc p.data = p.data.dropLast ++ [p.data.getLast hdata] :=
            (List.dropLast_append_getLast hdata).symm
        _ = p.data.dropLast ++ ['\n'] := by rw [hc]
    · right; rfl

theorem errorWriter_write_spec_witness :
    errorWriterWrite ⟨"p: ", false, false⟩ ⟨fun _ _ _ => .other 0, ⟨2, 1⟩, 0⟩
        [] "golog.go" 3 "std test\n" =
      some ([Event.write 2
          ("ERROR" ++ " " ++ linePfx ⟨"p: ", false, false⟩ "golog.go" 3 ++
            stripNL "std test\n" ++ ctxSuffix [] ++ "\n")],
        ("std test\n" : String).data.length, none)
    ∧ (("std test\n" : String).data = (stripNL "std test\n").data ++ ['\n']
        ∨ stripNL "std test\n" = "std test\n")
    ∧ errorWriterWrite ⟨"p: ", false, false⟩ ⟨fun _ _ _ => .other 0, ⟨2, 1⟩, 0⟩
        [] "golog.go" 3 "" = none :=
  errorWriter_write_spec ⟨"p: ", false, false⟩ ⟨fun _ _ _ => .other 0, ⟨2, 1⟩, 0⟩
    [] "golog.go" 3 "std test\n" rfl (by decide)

/-- C5: with empty context, `Debug(M)` on the text backend emits exactly
one line `DEBUG P: basename(file):line M` followed by a single newline,
with no context suffix. -/
theorem debug_single_line (t ps p f m : String) (ln : Nat) (s : GologState)
    (eo dbg : Nat)
    (hstack : isStackEnabled ps = false)
    (hm : '\n' ∉ m.data) (hp : '\n' ∉ p.data) (hf : '\n' ∉ f.data) :
    facadeDebug (LoggerFor t ps p) (SetOutputs eo dbg s) [] f ln (GoVal.str m) =
      some [Event.write dbg
        ("DEBUG" ++ " " ++ p ++ ": " ++ filepathBase f ++ ":" ++ natDecimal ln
          ++ " " ++ m ++ "\n")]
    ∧ '\n' ∉ ("DEBUG" ++ " " ++ p ++ ": " ++ filepathBase f ++ ":" ++ natDecimal ln
          ++ " " ++ m).data := by
  constructor
  · simp only [facadeDebug, getBaseLogger, SetOutputs, LoggerFor, streamDebug,
      streamPrint, linePfx, hstack, render,
      show printContext ([] : CtxMap) [] = some "" from rfl]
    simp [strAppend_assoc, strAppend_empty, strEmpty_append]
  · intro hc
    have hnd := natDecimal_no_newline ln
    have hfb : '\n' ∉ (filepathBase f).data := by
      intro h
      rcases filepathBase_chars f '\n' h with h1 | h1 | h1
      · exact hf h1
      · exact absurd h1 (by decide)
      · exact absurd h1 (by decide)
    simp [String.data_append, hp, hm, hfb, hnd] at hc

theorem debug_single_line_witness :
    facadeDebug (LoggerFor "" "" "myprefix")
        (SetOutputs 2 1 ⟨fun _ _ _ => .other 0, ⟨2, 1⟩, 0⟩) [] "golog.go" 42
        (GoVal.str "Hello world") =
      some [Event.write 1
        ("DEBUG" ++ " " ++ "myprefix" ++ ": " ++ filepathBase "golog.go" ++ ":"
          ++ natDecimal 42 ++ " " ++ "Hello world" ++ "\n")]
    ∧ '\n' ∉ ("DEBUG" ++ " " ++ "myprefix" ++ ": " ++ filepathBase "golog.go"
          ++ ":" ++ natDecimal 42 ++ " " ++ "Hello world").data :=
  debug_single_line "" "" "myprefix" "golog.go" "Hello world" 42
    ⟨fun _ _ _ => .other 0, ⟨2, 1⟩, 0⟩ 2 1 rfl (by decide) (by decide) (by decide)

/-- C3: for every non-empty merged context mapping (ambient context plus
an even-count explicit key/value list), the text backend's context suffix
lists exactly the merged keys in strictly ascending lexicographic order,
whatever order they were supplied or merged in. -/
theorem printContext_sorted_keys (amb : CtxMap) (addl : List GoVal) (v : CtxMap)
    (hnd : (keysOf amb).Nodup)
    (heven : addl.length % 2 = 0)
    (hmerge : insertPairs amb addl = some v)
    (hne : v ≠ []) :
    printContext amb addl =
      some (" [" ++ String.intercalate " "
        ((sortStrings (keysOf v)).map (fun k => k ++ "=" ++ render (mapGet v k)))
        ++ "]")
    ∧ (sortStrings (keysOf v)).Sorted (fun a b => a < b)
    ∧ List.Perm (sortStrings (keysOf v)) (keysOf v) := by
  have hvnd : (keysOf v).Nodup := insertPairs_nodup addl amb v hnd hmerge
  refine ⟨?_, sortStrings_sorted_lt hvnd, List.perm_insertionSort _ _⟩
  by_cases hlen : addl.length > 0
  · unfold printContext
    rw [if_pos (And.intro hlen heven), hmerge]
    simp [hne]
  · have h0 : addl = [] := by
      cases addl with
      | nil => rfl
      | cons a rest => simp at hlen
    subst h0
    have hv : v = amb := by
      simp only [insertPairs] at hmerge
      exact (Option.some_injective _ hmerge).symm
    subst hv
    unfold printContext
    rw [if_neg (by simp)]
    simp [hne]

theorem printContext_sorted_keys_witness :
    printContext [("op", GoVal.str "name")]
        [GoVal.str "cvarB", GoVal.str "b", GoVal.str "cvarA", GoVal.str "a"] =
      some (" [" ++ String.intercalate " "
        ((sortStrings (keysOf [("op", GoVal.str "name"),
            ("cvarB", GoVal.str "b"), ("cvarA", GoVal.str "a")])).map
          (fun k => k ++ "=" ++ render (mapGet [("op", GoVal.str "name"),
            ("cvarB", GoVal.str "b"), ("cvarA", GoVal.str "a")] k)))
        ++ "]")
    ∧ (sortStrings (keysOf [("op", GoVal.str "name"),
        ("cvarB", GoVal.str "b"), ("cvarA", GoVal.str "a")])).Sorted
          (fun a b => a < b)
    ∧ List.Perm (sortStrings (keysOf [("op", GoVal.str "name"),
        ("cvarB", GoVal.str "b"), ("cvarA", GoVal.str "a")]))
        (keysOf [("op", GoVal.str "name"),
          ("cvarB", GoVal.str "b"), ("cvarA", GoVal.str "a")]) :=
  printContext_sorted_keys [("op", GoVal.str "name")]
    [GoVal.str "cvarB", GoVal.str "b", GoVal.str "cvarA", GoVal.str "a"]
    [("op", GoVal.str "name"), ("cvarB", GoVal.str "b"), ("cvarA", GoVal.str "a")]
    (by decide) (by decide) (by decide) (by decide)

/-- C8: releasing a buffer whose capacity has grown beyond the pool's
configured maximum discards it instead of pooling it, so no pooled buffer
ever exceeds the cap and, with the pool empty, the next borrow yields a
fresh buffer. -/
theorem pool_discards_oversized (pool : List PoolBuffer) (buf : PoolBuffer)
    (hinv : ∀ b ∈ pool, b.cap ≤ maxBufferSize)
    (hbig : buf.cap > maxBufferSize) :
    returnBuffer pool buf = (pool, false)
    ∧ (∀ b ∈ (returnBuffer pool buf).1, b.cap ≤ maxBufferSize)
    ∧ (pool = [] → getBuffer (returnBuffer pool buf).1 = (freshBuffer, [])) := by
  have h1 : returnBuffer pool buf = (pool, false) := by
    unfold returnBuffer
    rw [if_pos hbig]
  refine ⟨h1, ?_, ?_⟩
  · rw [h1]
    exact hinv
  · intro hp
    rw [h1, hp]
    rfl

theorem pool_discards_oversized_witness :
    returnBuffer [] ⟨769⟩ = ([], false)
    ∧ (∀ b ∈ (returnBuffer [] ⟨769⟩).1, b.cap ≤ maxBufferSize)
    ∧ (([] : List PoolBuffer) = [] →
        getBuffer (returnBuffer [] ⟨769⟩).1 = (freshBuffer, [])) :=
  pool_discards_oversized [] ⟨769⟩ (by simp) (by decide)
